import Mathlib

/-!
Verification development for `bootimgtool` (src/bootimgtool/bootimgtool.cpp),
the boot-image unpack/pack command-line tool of DualBootPatcher.

The definitions below are a shallow embedding of the decision logic of
`unpack_main`, `pack_main` and their helpers (`str_to_uint32`,
`read_file_data`, the per-item scalar readers built on `fopen`/`fscanf`/
`fgets`, and the getopt option tables).  Machine integers are modelled as
`Nat` with explicit reduction modulo `2^32` where the C code relies on
`uint32_t` wraparound.  The file system is a function from paths to an
abstract per-file state, and every fallible operation returns `Except`.

External collaborators (libmbp's `BootImage` codec and libmbpio's path
helpers) are not part of src/; where a claim depends on them they are
modelled from the specification and marked as such in their doc comments.
-/

namespace Bootimgtool

/-- Modulus of `uint32_t` arithmetic: `2^32`. -/
def U32 : Nat := 4294967296

/-- Wraparound subtraction of two `uint32_t` values, as performed (implicitly,
by C unsigned arithmetic) in `unpack_main` lines 576-581. Both arguments are
reduced modulo `2^32` first, mirroring the storage type of the operands. -/
def u32sub (a b : Nat) : Nat := (a % U32 + (U32 - b % U32)) % U32

/-- Wraparound addition of two `uint32_t` values. -/
def u32add (a b : Nat) : Nat := (a + b) % U32

/-- The five values written out by `unpack_main` for the address group
(`base`, `kernel_offset`, `ramdisk_offset`, `second_offset`, `tags_offset`). -/
structure UnpackedOffsets where
  base : Nat
  kernel_offset : Nat
  ramdisk_offset : Nat
  second_offset : Nat
  tags_offset : Nat
deriving DecidableEq

/-- Derivation of the offsets from the four absolute addresses of a parsed
boot image, exactly as in `unpack_main` lines 576-581:
`base = kernelAddress - DefaultKernelOffset`, `kernel_offset =
DefaultKernelOffset`, and the other three offsets are `address - base` in
`uint32_t` arithmetic.  `dko` stands for the codec constant
`mbp::BootImage::DefaultKernelOffset`, left as a parameter. -/
def deriveOffsets (dko ka ra sa ta : Nat) : UnpackedOffsets :=
  { base := u32sub ka dko
    kernel_offset := dko
    ramdisk_offset := u32sub ra (u32sub ka dko)
    second_offset := u32sub sa (u32sub ka dko)
    tags_offset := u32sub ta (u32sub ka dko) }

/-- The four absolute addresses of a boot image (kernel, ramdisk, second
bootloader, kernel tags). -/
structure Addresses where
  ka : Nat
  ra : Nat
  sa : Nat
  ta : Nat
deriving DecidableEq

/-- Modelled from the spec: `mbp::BootImage::setAddresses` (libmbp, not under
src/) reconstructs each absolute address as `base + offset` -- "addresses are
reconstructed as `base + offset`, mirroring unpack's inverse".  `pack_main`
line 1442 passes `base` and the four offsets to this codec operation. -/
def reconstructAddresses (o : UnpackedOffsets) : Addresses :=
  { ka := u32add o.base o.kernel_offset
    ra := u32add o.base o.ramdisk_offset
    sa := u32add o.base o.second_offset
    ta := u32add o.base o.tags_offset }

/-- The exchangeable items of the tool, in the order of the pack option
table (unpack has the same items minus `aboot`). -/
inductive Item
  | cmdline | board | base | kernel_offset | ramdisk_offset | second_offset
  | tags_offset | ipl_address | rpm_address | appsbl_address | entrypoint
  | page_size | kernel | ramdisk | second | dt | aboot | ipl | rpm | appsbl
  | sin | sinhdr
deriving DecidableEq

/-- Key of an item, as it appears in the default file names and the long
option names of both subcommands. -/
def itemKey : Item → String
  | .cmdline => "cmdline"
  | .board => "board"
  | .base => "base"
  | .kernel_offset => "kernel_offset"
  | .ramdisk_offset => "ramdisk_offset"
  | .second_offset => "second_offset"
  | .tags_offset => "tags_offset"
  | .ipl_address => "ipl_address"
  | .rpm_address => "rpm_address"
  | .appsbl_address => "appsbl_address"
  | .entrypoint => "entrypoint"
  | .page_size => "page_size"
  | .kernel => "kernel"
  | .ramdisk => "ramdisk"
  | .second => "second"
  | .dt => "dt"
  | .aboot => "aboot"
  | .ipl => "ipl"
  | .rpm => "rpm"
  | .appsbl => "appsbl"
  | .sin => "sin"
  | .sinhdr => "sinhdr"

/-- Scalar items, i.e. the twelve items that have a `--value-[item]` long
option in `pack_main` (option codes 20001 to 20012). -/
def isValueScalar : Item → Bool
  | .cmdline | .board | .base | .kernel_offset | .ramdisk_offset
  | .second_offset | .tags_offset | .ipl_address | .rpm_address
  | .appsbl_address | .entrypoint | .page_size => true
  | _ => false

/-- Whitespace in the sense of C `isspace`, used by `strtoul` and the
`fscanf` numeric conversions to skip leading space. -/
def isWs (c : Char) : Bool :=
  c = ' ' || c = '\t' || c = '\n' || c = '\r' || c = '\x0b' || c = '\x0c'

/-- Value of a hexadecimal digit, or `none` for a non-digit. -/
def hexDigitVal (c : Char) : Option Nat :=
  if 48 ≤ c.toNat ∧ c.toNat ≤ 57 then some (c.toNat - 48)
  else if 97 ≤ c.toNat ∧ c.toNat ≤ 102 then some (c.toNat - 87)
  else if 65 ≤ c.toNat ∧ c.toNat ≤ 70 then some (c.toNat - 55)
  else none

/-- Value of a decimal digit, or `none` for a non-digit. -/
def decDigitVal (c : Char) : Option Nat :=
  if 48 ≤ c.toNat ∧ c.toNat ≤ 57 then some (c.toNat - 48) else none

/-- Longest initial run of digits of the given class, as digit values. -/
def takeDigits (dv : Char → Option Nat) : List Char → List Nat
  | [] => []
  | c :: cs =>
    match dv c with
    | some v => v :: takeDigits dv cs
    | none => []

/-- Optional leading sign, as accepted by `strtoul` and by the `fscanf`
integer conversions; returns whether the sign was a minus, and the rest. -/
def dropSign : List Char → Bool × List Char
  | '-' :: r => (true, r)
  | '+' :: r => (false, r)
  | r => (false, r)

/-- Optional `0x`/`0X` marker of a base-16 subject sequence; consumed only
when a hex digit follows it, matching the longest-match rule of `strtoul`. -/
def drop0x (dv : Char → Option Nat) (t : List Char) : List Char :=
  match t with
  | '0' :: c :: r =>
    if (c = 'x' || c = 'X') &&
        (match r with
         | d :: _ => (dv d).isSome
         | [] => false) then r else t
  | _ => t

/-- Numeric value of a digit run in the given base. -/
def digitsValue (b : Nat) (ds : List Nat) : Nat :=
  ds.foldl (fun a d => a * b + d) 0

/-- Result of the C library function `strtoul`: the returned `unsigned long`
value, the number of characters consumed (the distance from `str` to the
`end` pointer; `0` when no conversion was performed), and whether `errno`
was set to `ERANGE`. -/
structure StrtoulOut where
  value : Nat
  consumed : Nat
  erange : Bool
deriving DecidableEq

/-- Model of `strtoul(str, &end, base)` for bases 10 and 16 (the only bases
`bootimgtool` uses): skip leading whitespace, accept an optional sign, for
base 16 an optional `0x` marker, then the longest run of digits.  A value
whose magnitude exceeds `ulMax` (the platform `ULONG_MAX`) yields `ERANGE`
and the clamped value `ulMax`; a minus sign negates the value in the return
type.  With no digits at all, `end` stays at `str` (zero consumed). -/
def strtoulModel (ulMax : Nat) (s : List Char) (b : Nat) : StrtoulOut :=
  let dv := if b = 10 then decDigitVal else hexDigitVal
  let ws := (s.takeWhile isWs).length
  let t0 := s.dropWhile isWs
  let sg := dropSign t0
  let t1 := sg.2
  let signLen := t0.length - t1.length
  let t2 := if b = 16 then drop0x dv t1 else t1
  let pfxLen := t1.length - t2.length
  let ds := takeDigits dv t2
  if ds = [] then { value := 0, consumed := 0, erange := false }
  else
    let m := digitsValue b ds
    if m > ulMax then
      { value := ulMax, consumed := ws + signLen + pfxLen + ds.length, erange := true }
    else
      { value := if sg.1 then (ulMax + 1 - m) % (ulMax + 1) else m
        consumed := ws + signLen + pfxLen + ds.length
        erange := false }

/-- Embedding of `str_to_uint32` (bootimgtool.cpp lines 334-347): call
`strtoul`, fail on `ERANGE`, on an empty string, or when the end pointer is
not at the terminating NUL; otherwise store the value in a `uint32_t`
(truncating modulo `2^32`).  `ulMax` is the platform `ULONG_MAX`
(`2^32 - 1` where `unsigned long` is 32 bits, `2^64 - 1` on LP64). -/
def str_to_uint32 (ulMax : Nat) (s : String) (b : Nat) : Option Nat :=
  let r := strtoulModel ulMax s.data b
  if r.erange then none
  else if s.data = [] then none
  else if r.consumed ≠ s.data.length then none
  else some (r.value % U32)

/-- Model of the conversion `fscanf(fp, "%08x", &out)` applied to the whole
remaining stream `s`: skip whitespace, then within a maximum field width of
eight characters match an optionally signed hexadecimal number in the style
of `strtoul` base 16 (in `scanf`, `"%08x"` is read as a field *width* of 8,
a maximum, not an exact length).  Returns the converted `uint32_t` value, or
`none` when the conversion fails (no digit found, or empty input, in both of
which cases `fscanf` returns a count different from 1). -/
def scanHex8 (s : List Char) : Option Nat :=
  let t := (s.dropWhile isWs).take 8
  let sg := dropSign t
  let t2 := drop0x hexDigitVal sg.2
  let ds := takeDigits hexDigitVal t2
  if ds = [] then none
  else
    let m := digitsValue 16 ds
    some (if sg.1 then (U32 - m % U32) % U32 else m % U32)

/-- Model of the conversion `fscanf(fp, "%u", &out)` applied to the whole
remaining stream: skip whitespace, match an optionally signed decimal number
with no width limit, store into a 32-bit unsigned value. -/
def scanDec (s : List Char) : Option Nat :=
  let t := s.dropWhile isWs
  let sg := dropSign t
  let ds := takeDigits decDigitVal sg.2
  if ds = [] then none
  else
    let m := digitsValue 10 ds
    some (if sg.1 then (U32 - m % U32) % U32 else m % U32)

/-- Abstract state of one path in the file system, as observable through the
C stdio calls the tool makes:
`absent` -- `fopen` fails with `errno = ENOENT` (no such file);
`denied` -- `fopen` fails with some other `errno` (e.g. `EACCES`);
`content d` -- the file opens and the whole stream `d` can be read;
`readFail` -- the file opens but reading reports an error (`ferror`). -/
inductive FileState
  | absent
  | denied
  | content (d : String)
  | readFail
deriving DecidableEq

/-- A file system: the state of every path. -/
abbrev Fsys := String → FileState

/-- Opening a path: POSIX `fopen` on the empty path always fails with
`ENOENT` (an empty string never names an existing file); any other path has
the state the file system assigns it. -/
def fsOpen (fs : Fsys) (p : String) : FileState :=
  if p = "" then .absent else fs p

/-- Error cause of a failed open or read, as left in `errno`. -/
inductive Errno
  | enoent
  | eacces
  | eio
deriving DecidableEq

/-- Embedding of `read_file_data` (bootimgtool.cpp lines 311-332): open the
path for reading and return all of its bytes; a zero-length file succeeds
with empty data.  On failure the caller can inspect `errno`: `ENOENT` when
the open failed because the file does not exist, another code otherwise. -/
def read_file_data (fs : Fsys) (p : String) : Except Errno String :=
  match fsOpen fs p with
  | .absent => .error .enoent
  | .denied => .error .eacces
  | .readFail => .error .eio
  | .content d => .ok d

/-- Errors that abort `pack_main` with a `false` return. -/
inductive PackErr
  | invalidValue (i : Item)
  | invalidType
  | usage
  | abootRequired
  | ioError (p : String)
  | scanFormat (p : String)
deriving DecidableEq

/-- Embedding of one scalar hex read of `pack_main` (the pattern of lines
1190-1207, repeated for each hex item): `fopen` the path; when the open
fails -- for any reason, the code never inspects `errno` here -- substitute
the codec default `dflt`; when the stream reports a read error, abort with
the path and `strerror`; otherwise `fscanf("%08x")`: a failed conversion
aborts with the "expected format" error, a successful one yields the
value. -/
def readHexItem (fs : Fsys) (p : String) (dflt : Nat) : Except PackErr Nat :=
  match fsOpen fs p with
  | .content d =>
    match scanHex8 d.data with
    | some v => .ok v
    | none => .error (.scanFormat p)
  | .readFail => .error (.ioError p)
  | .absent => .ok dflt
  | .denied => .ok dflt

/-- Embedding of the page-size read of `pack_main` (lines 1362-1378), the
same pattern with `fscanf("%u")` i.e. decimal. -/
def readDecItem (fs : Fsys) (p : String) (dflt : Nat) : Except PackErr Nat :=
  match fsOpen fs p with
  | .content d =>
    match scanDec d.data with
    | some v => .ok v
    | none => .error (.scanFormat p)
  | .readFail => .error (.ioError p)
  | .absent => .ok dflt
  | .denied => .ok dflt

/-- Embedding of a text item read of `pack_main` (cmdline lines 1147-1166,
board lines 1169-1188): `fopen`; open failure substitutes the codec default;
a read error (`ferror` after `fgets`) is fatal; otherwise `fgets` into a
buffer of `cap` bytes reads at most `cap - 1` characters of the first line
(an empty file leaves the zero-initialised buffer, i.e. the empty string)
and the trailing part from the first newline on is erased. -/
def readTextItem (cap : Nat) (fs : Fsys) (p : String) (dflt : String) :
    Except PackErr String :=
  match fsOpen fs p with
  | .content d => .ok (String.mk ((d.data.take (cap - 1)).takeWhile (fun c => c ≠ '\n')))
  | .readFail => .error (.ioError p)
  | .absent => .ok dflt
  | .denied => .ok dflt

/-- Embedding of the kernel and ramdisk blob reads (lines 1380-1390): any
failure of `read_file_data`, including a missing file, aborts. -/
def readRequiredBlob (fs : Fsys) (p : String) : Except PackErr String :=
  match read_file_data fs p with
  | .ok d => .ok d
  | .error _ => .error (.ioError p)

/-- Embedding of every other blob read (lines 1392-1438): a failure with
`errno == ENOENT` is tolerated and leaves the blob in its initial empty
state; any other failure aborts. -/
def readOptionalBlob (fs : Fsys) (p : String) : Except PackErr String :=
  match read_file_data fs p with
  | .ok d => .ok d
  | .error .enoent => .ok ""
  | .error _ => .error (.ioError p)

/-- Boot image target types of the `-t` option of `pack_main`. -/
inductive BType
  | android
  | bump
  | loki
  | sonyelf
deriving DecidableEq

/-- The mutable state accumulated by `pack_main`'s `getopt_long` loop (lines
714-1010): the option flags, the per-item path strings (empty = not set),
the `values` presence map, and the literal values stored by the
`--value-[item]` handlers.  In C the numeric fields are uninitialised until
set; here they carry 0 and are only consulted after the matching `values`
entry is true, exactly as in the source. -/
structure PackState where
  noPfx : Bool
  inputDir : String
  pfxArg : String
  paths : Item → String
  values : Item → Bool
  numVals : Item → Nat
  cmdlineVal : String
  boardVal : String
  btype : BType

/-- Initial state at the top of `pack_main`: everything empty, type
`Android`. -/
def initPackState : PackState :=
  { noPfx := false
    inputDir := ""
    pfxArg := ""
    paths := fun _ => ""
    values := fun _ => false
    numVals := fun _ => 0
    cmdlineVal := ""
    boardVal := ""
    btype := .android }

/-- One recognised command-line option of the pack subcommand, i.e. one
iteration of the `getopt_long` loop.  `unknownOpt` stands for any token
`getopt_long` rejects (it returns `?` and the switch falls to `default`). -/
inductive PackOpt
  | inputDirOpt (d : String)
  | pfxOpt (p : String)
  | noPfxOpt
  | typeOpt (t : String)
  | inputItem (i : Item) (p : String)
  | valueItem (i : Item) (v : String)
  | unknownOpt
deriving DecidableEq

/-- State update shared by the ten numeric `--value-[item]` handlers: clear
the item's path, mark the value present, store the parsed number. -/
def setNumValue (st : PackState) (i : Item) (v : Nat) : PackState :=
  { st with
    paths := Function.update st.paths i ""
    values := Function.update st.values i true
    numVals := Function.update st.numVals i v }

/-- A numeric `--value-[item]` handler of `pack_main` (lines 897-985): parse
the argument with `str_to_uint32` in base `b`; a failed parse prints
"Invalid [item]" and returns `false` immediately. -/
def handleValueNum (ulMax : Nat) (st : PackState) (i : Item) (s : String)
    (b : Nat) : Except PackErr PackState :=
  match str_to_uint32 ulMax s b with
  | some v => .ok (setNumValue st i v)
  | none => .error (.invalidValue i)

/-- One iteration of `pack_main`'s option switch (lines 857-1010).  Path
options store their argument; `--value-[item]` options clear the item's path,
set the `values` entry and store the literal (parsing numeric items in base
16, `page_size` in base 10); `-t` matches the four type names; anything
unrecognised prints the usage text to standard error and fails.  A
`valueItem` for a blob item does not exist in the long-option table, so it
behaves as an unrecognised option. -/
def processPackOpt (ulMax : Nat) (st : PackState) (o : PackOpt) :
    Except PackErr PackState :=
  match o with
  | .inputDirOpt d => .ok { st with inputDir := d }
  | .pfxOpt p => .ok { st with pfxArg := p }
  | .noPfxOpt => .ok { st with noPfx := true }
  | .typeOpt t =>
    if t = "android" then .ok { st with btype := .android }
    else if t = "bump" then .ok { st with btype := .bump }
    else if t = "loki" then .ok { st with btype := .loki }
    else if t = "sonyelf" then .ok { st with btype := .sonyelf }
    else .error .invalidType
  | .inputItem i p => .ok { st with paths := Function.update st.paths i p }
  | .valueItem i s =>
    match i with
    | .cmdline =>
      .ok { st with
            paths := Function.update st.paths .cmdline ""
            values := Function.update st.values .cmdline true
            cmdlineVal := s }
    | .board =>
      .ok { st with
            paths := Function.update st.paths .board ""
            values := Function.update st.values .board true
            boardVal := s }
    | .base => handleValueNum ulMax st .base s 16
    | .kernel_offset => handleValueNum ulMax st .kernel_offset s 16
    | .ramdisk_offset => handleValueNum ulMax st .ramdisk_offset s 16
    | .second_offset => handleValueNum ulMax st .second_offset s 16
    | .tags_offset => handleValueNum ulMax st .tags_offset s 16
    | .ipl_address => handleValueNum ulMax st .ipl_address s 16
    | .rpm_address => handleValueNum ulMax st .rpm_address s 16
    | .appsbl_address => handleValueNum ulMax st .appsbl_address s 16
    | .entrypoint => handleValueNum ulMax st .entrypoint s 16
    | .page_size => handleValueNum ulMax st .page_size s 10
    | _ => .error .usage
  | .unknownOpt => .error .usage

/-- The whole `getopt_long` loop of `pack_main`: process the options left to
right, stopping at the first error. -/
def processPackOpts (ulMax : Nat) (opts : List PackOpt) :
    Except PackErr PackState :=
  opts.foldlM (processPackOpt ulMax) initPackState

/-- Modelled from the spec: `io::baseName` from libmbpio (not under src/).
The spec says the derived name is "the base name of the image file argument":
the component after the last path separator. -/
def io_baseName (p : String) : String :=
  String.mk ((p.data.reverse.takeWhile (fun c => c ≠ '/')).reverse)

/-- Modelled from the spec: `io::pathJoin` from libmbpio (not under src/).
The spec writes default paths as `join(baseDirectory, name)` and its example
joins `out/` and `boot.img-kernel` into `out/boot.img-kernel`: a separator is
inserted only when the directory does not already end in one. -/
def io_pathJoin (d n : String) : String :=
  if d = "" then n
  else if d.data.getLast? = some '/' then d ++ n
  else d ++ "/" ++ n

/-- The effective file-name stem computed by both subcommands (unpack lines
481-488, pack lines 1025-1032): in no-prefix mode it is empty; otherwise the
`-p` argument, or, when none was given, the base name of the image file
argument, with `"-"` appended. -/
def effectivePfx (noPfx : Bool) (pfxArg imageFile : String) : String :=
  if noPfx then ""
  else (if pfxArg = "" then io_baseName imageFile else pfxArg) ++ "-"

/-- Default input directory of `pack_main` (lines 1034-1036): the current
directory when `-i` was not given. -/
def packInputDir (d : String) : String := if d = "" then "." else d

/-- Path finally used for an item by `pack_main` (lines 1038-1079): a scalar
item falls back to the default path only when no path was set and no value
override is present; a blob item falls back whenever no path was set --
except `aboot`, for which no default is ever computed; an explicitly set
path is kept as is. -/
def packResolvedPath (st : PackState) (outFile : String) (i : Item) : String :=
  let p := st.paths i
  if isValueScalar i then
    if p = "" ∧ st.values i = false then
      io_pathJoin (packInputDir st.inputDir)
        (effectivePfx st.noPfx st.pfxArg outFile ++ itemKey i)
    else p
  else if i = .aboot then p
  else if p = "" then
    io_pathJoin (packInputDir st.inputDir)
      (effectivePfx st.noPfx st.pfxArg outFile ++ itemKey i)
  else p

/-- The option state accumulated by `unpack_main`'s loop (lines 349-479):
output directory, the two prefix flags, and the per-item output paths (the
21 unpack items; there is no `--output-aboot` option). -/
structure UnpackState where
  noPfx : Bool
  outputDir : String
  pfxArg : String
  paths : Item → String

/-- Default output directory of `unpack_main` (lines 490-492). -/
def unpackOutputDir (d : String) : String := if d = "" then "." else d

/-- Path finally used for an item by `unpack_main` (lines 494-535): the
explicit `--output-[item]` path when given, otherwise
`join(outputDirectory, effectivePrefix + key)`. -/
def unpackResolvedPath (st : UnpackState) (inputFile : String) (i : Item) :
    String :=
  let p := st.paths i
  if p = "" then
    io_pathJoin (unpackOutputDir st.outputDir)
      (effectivePfx st.noPfx st.pfxArg inputFile ++ itemKey i)
  else p

/-- Constants consumed from the external codec (libmbp `BootImage`, not
under src/): the text field capacities and the documented per-field
defaults.  Their concrete values live outside this repository, so they are
parameters of the pack pipeline. -/
structure CodecEnv where
  bootArgsSize : Nat
  bootNameSize : Nat
  dCmdline : String
  dBoard : String
  dBase : Nat
  dKernelOffset : Nat
  dRamdiskOffset : Nat
  dSecondOffset : Nat
  dTagsOffset : Nat
  dIplAddress : Nat
  dRpmAddress : Nat
  dAppsblAddress : Nat
  dEntrypoint : Nat
  dPageSize : Nat
deriving DecidableEq

/-- A sample instantiation of the codec constants, for concrete checks. -/
def sampleEnv : CodecEnv :=
  { bootArgsSize := 512
    bootNameSize := 16
    dCmdline := ""
    dBoard := ""
    dBase := 268435456
    dKernelOffset := 32768
    dRamdiskOffset := 16777216
    dSecondOffset := 15728640
    dTagsOffset := 256
    dIplAddress := 1342177280
    dRpmAddress := 1342177280
    dAppsblAddress := 1342177280
    dEntrypoint := 0
    dPageSize := 2048 }

/-- Guard of every scalar read in `pack_main`: a scalar with a value
override present skips its file entirely (`if (!values[OPT_VALUE_...])`)
and uses the stored literal; otherwise the file at the resolved path is read
as a hex item. -/
def scalarHexStep (hasVal : Bool) (lit : Nat) (fs : Fsys) (p : String)
    (dflt : Nat) : Except PackErr Nat :=
  if hasVal then .ok lit else readHexItem fs p dflt

/-- The same guard for the decimal item `page_size`. -/
def scalarDecStep (hasVal : Bool) (lit : Nat) (fs : Fsys) (p : String)
    (dflt : Nat) : Except PackErr Nat :=
  if hasVal then .ok lit else readDecItem fs p dflt

/-- The same guard for the text items `cmdline` and `board`. -/
def scalarTextStep (cap : Nat) (hasVal : Bool) (lit : String) (fs : Fsys)
    (p : String) (dflt : String) : Except PackErr String :=
  if hasVal then .ok lit else readTextItem cap fs p dflt

/-- The scalar fields assembled by the read phase of `pack_main`. -/
structure ScalarSet where
  cmdline : String
  board : String
  base : Nat
  kernel_offset : Nat
  ramdisk_offset : Nat
  second_offset : Nat
  tags_offset : Nat
  ipl_address : Nat
  rpm_address : Nat
  appsbl_address : Nat
  entrypoint : Nat
  page_size : Nat
deriving DecidableEq

/-- Scalar read phase of `pack_main` (lines 1146-1378), in source order:
cmdline, board, the nine hex fields, then page_size.  `rp` is the resolved
path of each item. -/
def packScalarPhase (env : CodecEnv) (fs : Fsys) (st : PackState)
    (rp : Item → String) : Except PackErr ScalarSet := do
  let cmdl ← scalarTextStep env.bootArgsSize (st.values .cmdline)
      st.cmdlineVal fs (rp .cmdline) env.dCmdline
  let brd ← scalarTextStep env.bootNameSize (st.values .board)
      st.boardVal fs (rp .board) env.dBoard
  let bas ← scalarHexStep (st.values .base) (st.numVals .base) fs
      (rp .base) env.dBase
  let ko ← scalarHexStep (st.values .kernel_offset)
      (st.numVals .kernel_offset) fs (rp .kernel_offset) env.dKernelOffset
  let ro ← scalarHexStep (st.values .ramdisk_offset)
      (st.numVals .ramdisk_offset) fs (rp .ramdisk_offset) env.dRamdiskOffset
  let so ← scalarHexStep (st.values .second_offset)
      (st.numVals .second_offset) fs (rp .second_offset) env.dSecondOffset
  let tg ← scalarHexStep (st.values .tags_offset)
      (st.numVals .tags_offset) fs (rp .tags_offset) env.dTagsOffset
  let ia ← scalarHexStep (st.values .ipl_address)
      (st.numVals .ipl_address) fs (rp .ipl_address) env.dIplAddress
  let ra ← scalarHexStep (st.values .rpm_address)
      (st.numVals .rpm_address) fs (rp .rpm_address) env.dRpmAddress
  let aa ← scalarHexStep (st.values .appsbl_address)
      (st.numVals .appsbl_address) fs (rp .appsbl_address) env.dAppsblAddress
  let ep ← scalarHexStep (st.values .entrypoint)
      (st.numVals .entrypoint) fs (rp .entrypoint) env.dEntrypoint
  let ps ← scalarDecStep (st.values .page_size)
      (st.numVals .page_size) fs (rp .page_size) env.dPageSize
  pure { cmdline := cmdl, board := brd, base := bas, kernel_offset := ko
         ramdisk_offset := ro, second_offset := so, tags_offset := tg
         ipl_address := ia, rpm_address := ra, appsbl_address := aa
         entrypoint := ep, page_size := ps }

/-- The blob fields assembled by the read phase of `pack_main`. -/
structure BlobSet where
  kernel : String
  ramdisk : String
  second : String
  dt : String
  aboot : String
  ipl : String
  rpm : String
  appsbl : String
  sin : String
  sinhdr : String
deriving DecidableEq

/-- Blob read phase of `pack_main` (lines 1380-1438), in source order:
kernel and ramdisk are required (any read failure is fatal, with no look at
the target type); every other blob tolerates a missing file and stays
empty. -/
def packBlobPhase (fs : Fsys) (rp : Item → String) :
    Except PackErr BlobSet := do
  let kb ← readRequiredBlob fs (rp .kernel)
  let rb ← readRequiredBlob fs (rp .ramdisk)
  let sb ← readOptionalBlob fs (rp .second)
  let db ← readOptionalBlob fs (rp .dt)
  let ab ← readOptionalBlob fs (rp .aboot)
  let ib ← readOptionalBlob fs (rp .ipl)
  let pb ← readOptionalBlob fs (rp .rpm)
  let qb ← readOptionalBlob fs (rp .appsbl)
  let nb ← readOptionalBlob fs (rp .sin)
  let hb ← readOptionalBlob fs (rp .sinhdr)
  pure { kernel := kb, ramdisk := rb, second := sb, dt := db, aboot := ab
         ipl := ib, rpm := pb, appsbl := qb, sin := nb, sinhdr := hb }

/-- The full field set handed to the codec's build operation. -/
structure FieldSet where
  scalars : ScalarSet
  blobs : BlobSet
  btype : BType
deriving DecidableEq

/-- The decision pipeline of `pack_main` up to the codec hand-off: process
the option loop (any failure there returns before any file is touched);
check the Loki precondition (line 1012: type Loki with an empty aboot path
fails before any path resolution or I/O); resolve the per-item paths; run
the scalar and blob read phases; assemble the field set for
`BootImage::createFile`.  The file system `fs` is consulted only by the two
read phases.  An `error` result means `pack_main` returned `false` without
reaching the codec's build step, so no output image is created. -/
def packReads (ulMax : Nat) (env : CodecEnv) (opts : List PackOpt)
    (outFile : String) (fs : Fsys) : Except PackErr FieldSet :=
  match processPackOpts ulMax opts with
  | .error e => .error e
  | .ok st =>
    if st.btype = .loki ∧ st.paths .aboot = "" then .error .abootRequired
    else
      let rp := packResolvedPath st outFile
      match packScalarPhase env fs st rp with
      | .error e => .error e
      | .ok sc =>
        match packBlobPhase fs rp with
        | .error e => .error e
        | .ok bl => .ok { scalars := sc, blobs := bl, btype := st.btype }

/-- One command-line option token, as classified by `getopt_long`: a short
option character (from a `-x` cluster) or a long option name (from
`--name` or `--name=value`). -/
inductive CliTok
  | shortOpt (c : Char)
  | longOpt (s : String)
deriving DecidableEq

/-- Short options accepted by `unpack_main`: the optstring is `"o:p:n"`
(line 436).  Note there is no `h`. -/
def unpackShortOpts : List Char := ['o', 'p', 'n']

/-- Short options accepted by `pack_main`: the optstring is `"i:p:nt:"`
(line 857).  Note there is no `h`. -/
def packShortOpts : List Char := ['i', 'p', 'n', 't']

/-- The `long_options` table of `unpack_main` (lines 404-432): each entry
maps a long name to the `int` value `getopt_long` returns for it.  Note
there is no `"help"` entry. -/
def unpackLongOpts : List (String × Nat) :=
  [("output", 111), ("prefix", 112), ("noprefix", 110),
   ("output-cmdline", 10001), ("output-board", 10002), ("output-base", 10003),
   ("output-kernel_offset", 10004), ("output-ramdisk_offset", 10005),
   ("output-second_offset", 10006), ("output-tags_offset", 10007),
   ("output-ipl_address", 10008), ("output-rpm_address", 10009),
   ("output-appsbl_address", 10010), ("output-entrypoint", 10011),
   ("output-page_size", 10012), ("output-kernel", 10013),
   ("output-ramdisk", 10014), ("output-second", 10015), ("output-dt", 10016),
   ("output-ipl", 10017), ("output-rpm", 10018), ("output-appsbl", 10019),
   ("output-sin", 10020), ("output-sinhdr", 10021)]

/-- The `long_options` table of `pack_main` (lines 810-853).  Note there is
no `"help"` entry. -/
def packLongOpts : List (String × Nat) :=
  [("input", 105), ("prefix", 112), ("noprefix", 110), ("type", 116),
   ("input-cmdline", 10001), ("input-board", 10002), ("input-base", 10003),
   ("input-kernel_offset", 10004), ("input-ramdisk_offset", 10005),
   ("input-second_offset", 10006), ("input-tags_offset", 10007),
   ("input-ipl_address", 10008), ("input-rpm_address", 10009),
   ("input-appsbl_address", 10010), ("input-entrypoint", 10011),
   ("input-page_size", 10012), ("input-kernel", 10013),
   ("input-ramdisk", 10014), ("input-second", 10015), ("input-dt", 10016),
   ("input-aboot", 10017), ("input-ipl", 10018), ("input-rpm", 10019),
   ("input-appsbl", 10020), ("input-sin", 10021), ("input-sinhdr", 10022),
   ("value-cmdline", 20001), ("value-board", 20002), ("value-base", 20003),
   ("value-kernel_offset", 20004), ("value-ramdisk_offset", 20005),
   ("value-second_offset", 20006), ("value-tags_offset", 20007),
   ("value-ipl_address", 20008), ("value-rpm_address", 20009),
   ("value-appsbl_address", 20010), ("value-entrypoint", 20011),
   ("value-page_size", 20012)]

/-- The `int` a `getopt_long` call with the given tables returns for one
option token: a recognised short option yields its character code, a
recognised long option yields its table value, and anything else yields
`?` (character code 63). -/
def getoptCode (shorts : List Char) (longs : List (String × Nat)) :
    CliTok → Nat
  | .shortOpt c => if shorts.contains c then c.toNat else 63
  | .longOpt s =>
    match longs.find? (fun e => e.1 == s) with
    | some e => e.2
    | none => 63

/-- Observable outcome of one iteration of a subcommand's option switch:
`handled` -- one of the real option cases stores its argument and the loop
continues; `helpToStdout` -- the `case 'h'` branch prints the usage text to
standard output and returns `true` (success); `usageToStderr` -- the
`default` branch prints the usage text to standard error and returns
`false`. -/
inductive OptOutcome
  | handled
  | helpToStdout
  | usageToStderr
deriving DecidableEq

/-- The switch of `unpack_main`'s option loop (lines 437-470): cases for
`o`, `p`, `n` (codes 111, 112, 110) and the 21 `--output-[item]` codes
10001-10021, then the `case 'h'` branch (code 104), then `default`. -/
def unpackSwitchCase (code : Nat) : OptOutcome :=
  if code = 111 ∨ code = 112 ∨ code = 110 ∨
      (10001 ≤ code ∧ code ≤ 10021) then .handled
  else if code = 104 then .helpToStdout
  else .usageToStderr

/-- The switch of `pack_main`'s option loop (lines 858-1009): cases for
`i`, `p`, `n`, `t` (codes 105, 112, 110, 116), the 22 `--input-[item]`
codes 10001-10022 and the 12 `--value-[item]` codes 20001-20012, then the
`case 'h'` branch (code 104), then `default`. -/
def packSwitchCase (code : Nat) : OptOutcome :=
  if code = 105 ∨ code = 112 ∨ code = 110 ∨ code = 116 ∨
      (10001 ≤ code ∧ code ≤ 10022) ∨ (20001 ≤ code ∧ code ≤ 20012) then
    .handled
  else if code = 104 then .helpToStdout
  else .usageToStderr

/-- Base passed to `str_to_uint32` by the numeric `--value-[item]` handlers
of `pack_main`: 16 for the nine hex items, 10 for `page_size`; the text and
blob items have no numeric handler. -/
def numBase : Item → Option Nat
  | .base | .kernel_offset | .ramdisk_offset | .second_offset | .tags_offset
  | .ipl_address | .rpm_address | .appsbl_address | .entrypoint => some 16
  | .page_size => some 10
  | _ => none

/-- Option state in which only `--input-base /x` was given, for concrete
checks. -/
def pathOnlyState : PackState :=
  { initPackState with paths := Function.update initPackState.paths Item.base "/x" }

/-- Option state in which only `-t loki` was given, for concrete checks. -/
def lokiOptState : PackState := { initPackState with btype := BType.loki }

/-! Helper lemmas about the pack option loop. -/

/-- Splitting a successful option-loop run at a concatenation point. -/
theorem packFold_append (ulMax : Nat) (l1 l2 : List PackOpt) (st st' : PackState)
    (h : (l1 ++ l2).foldlM (processPackOpt ulMax) st = .ok st') :
    ∃ stm, l1.foldlM (processPackOpt ulMax) st = .ok stm ∧
      l2.foldlM (processPackOpt ulMax) stm = .ok st' := by
  induction l1 generalizing st with
  | nil => exact ⟨st, rfl, h⟩
  | cons o t ih =>
    rw [List.cons_append, List.foldlM_cons] at h
    cases ho : processPackOpt ulMax st o with
    | error e => rw [ho] at h; simp [Bind.bind, Except.bind] at h
    | ok st1 =>
      rw [ho] at h
      simp only [Bind.bind, Except.bind] at h
      obtain ⟨stm, h1, h2⟩ := ih st1 h
      refine ⟨stm, ?_, h2⟩
      rw [List.foldlM_cons, ho]
      simpa [Bind.bind, Except.bind] using h1

/-- A state property preserved by every processed option is preserved by a
successful run of the loop. -/
theorem packFold_preserve (ulMax : Nat) (P : PackState → Prop) (l : List PackOpt)
    (hstep : ∀ st o st', o ∈ l → processPackOpt ulMax st o = .ok st' → P st → P st')
    (st st' : PackState) (h : l.foldlM (processPackOpt ulMax) st = .ok st')
    (hP : P st) : P st' := by
  induction l generalizing st with
  | nil => simp only [List.foldlM_nil] at h; cases h; exact hP
  | cons o t ih =>
    rw [List.foldlM_cons] at h
    cases ho : processPackOpt ulMax st o with
    | error e => rw [ho] at h; simp [Bind.bind, Except.bind] at h
    | ok st1 =>
      rw [ho] at h
      simp only [Bind.bind, Except.bind] at h
      exact ih (fun s o' s' hm => hstep s o' s' (List.mem_cons_of_mem _ hm)) st1 h
        (hstep st o st1 (List.mem_cons_self _ _) ho hP)

/-- A successful numeric value handler parsed its literal and stored it. -/
theorem handleValueNum_ok {ulMax : Nat} {st : PackState} {i : Item} {s : String}
    {b : Nat} {st' : PackState} (h : handleValueNum ulMax st i s b = .ok st') :
    ∃ v, str_to_uint32 ulMax s b = some v ∧ st' = setNumValue st i v := by
  unfold handleValueNum at h
  cases hp : str_to_uint32 ulMax s b with
  | none => rw [hp] at h; simp at h
  | some v => rw [hp] at h; injection h with h; exact ⟨v, rfl, h.symm⟩

/-- Setting one entry of a boolean item map to true keeps every true
entry true. -/
theorem update_true_mono {f : Item → Bool} {i j : Item} (hv : f i = true) :
    Function.update f j true i = true := by
  rcases eq_or_ne i j with rfl | hne
  · simp
  · simp [Function.update_noteq hne, hv]

/-- A numeric value handler never clears a `values` entry. -/
theorem handleValueNum_values_mono {ulMax : Nat} {st : PackState} {j : Item}
    {s : String} {b : Nat} {st' : PackState}
    (h : handleValueNum ulMax st j s b = .ok st') {i : Item}
    (hv : st.values i = true) : st'.values i = true := by
  rcases handleValueNum_ok h with ⟨v, _, rfl⟩
  exact update_true_mono hv

/-- No option handler of the pack loop ever clears a `values` entry: once a
value override is recorded it stays recorded, whatever options follow. -/
theorem processPackOpt_values_mono {ulMax : Nat} {st : PackState} {o : PackOpt}
    {st' : PackState} (h : processPackOpt ulMax st o = .ok st') (i : Item)
    (hv : st.values i = true) : st'.values i = true := by
  cases o with
  | inputDirOpt d => simp only [processPackOpt, Except.ok.injEq] at h; subst h; exact hv
  | pfxOpt p => simp only [processPackOpt, Except.ok.injEq] at h; subst h; exact hv
  | noPfxOpt => simp only [processPackOpt, Except.ok.injEq] at h; subst h; exact hv
  | typeOpt t =>
    simp only [processPackOpt] at h
    split_ifs at h <;> simp only [Except.ok.injEq] at h <;> subst h <;> exact hv
  | inputItem j p => simp only [processPackOpt, Except.ok.injEq] at h; subst h; exact hv
  | unknownOpt => simp [processPackOpt] at h
  | valueItem j s =>
    cases j <;> first
      | (simp only [processPackOpt, Except.ok.injEq] at h; subst h; exact update_true_mono hv)
      | exact handleValueNum_values_mono h hv
      | simp [processPackOpt] at h

/-- A successfully processed `--value-[item]` option records the value
override for its item. -/
theorem processPackOpt_value_sets {ulMax : Nat} {st : PackState} {i : Item}
    {v : String} {st' : PackState}
    (h : processPackOpt ulMax st (.valueItem i v) = .ok st') :
    st'.values i = true := by
  cases i <;> first
    | (simp only [processPackOpt, Except.ok.injEq] at h; subst h; simp)
    | (rcases handleValueNum_ok h with ⟨w, _, rfl⟩; simp [setNumValue])
    | simp [processPackOpt] at h

/-- Updating any item other than `aboot` keeps the `aboot` path empty. -/
theorem update_paths_preserve {f : Item → String} {j : Item} {p : String}
    (hj : j ≠ Item.aboot) (ha : f Item.aboot = "") :
    Function.update f j p Item.aboot = "" := by
  rw [Function.update_noteq (Ne.symm hj)]; exact ha

/-- A numeric value handler (always for a scalar item) keeps the `aboot`
path empty. -/
theorem handleValueNum_aboot {ulMax : Nat} {st : PackState} {j : Item}
    {s : String} {b : Nat} {st' : PackState}
    (h : handleValueNum ulMax st j s b = .ok st') (hj : j ≠ Item.aboot)
    (ha : st.paths Item.aboot = "") : st'.paths Item.aboot = "" := by
  rcases handleValueNum_ok h with ⟨v, _, rfl⟩
  exact update_paths_preserve hj ha

/-- The only option handler that can make the `aboot` path non-empty is
`--input-aboot` itself. -/
theorem processPackOpt_aboot_path {ulMax : Nat} {st : PackState} {o : PackOpt}
    {st' : PackState} (h : processPackOpt ulMax st o = .ok st')
    (hno : ∀ p, o ≠ PackOpt.inputItem Item.aboot p)
    (ha : st.paths Item.aboot = "") : st'.paths Item.aboot = "" := by
  cases o with
  | inputDirOpt d => simp only [processPackOpt, Except.ok.injEq] at h; subst h; exact ha
  | pfxOpt p => simp only [processPackOpt, Except.ok.injEq] at h; subst h; exact ha
  | noPfxOpt => simp only [processPackOpt, Except.ok.injEq] at h; subst h; exact ha
  | typeOpt t =>
    simp only [processPackOpt] at h
    split_ifs at h <;> simp only [Except.ok.injEq] at h <;> subst h <;> exact ha
  | unknownOpt => simp [processPackOpt] at h
  | inputItem j p =>
    simp only [processPackOpt, Except.ok.injEq] at h
    subst h
    have hj : j ≠ Item.aboot := fun hh => hno p (by rw [hh])
    exact update_paths_preserve hj ha
  | valueItem j s =>
    cases j with
    | cmdline =>
      simp only [processPackOpt, Except.ok.injEq] at h
      subst h
      show Function.update st.paths Item.cmdline "" Item.aboot = ""
      refine update_paths_preserve ?_ ha
      decide
    | board =>
      simp only [processPackOpt, Except.ok.injEq] at h
      subst h
      show Function.update st.paths Item.board "" Item.aboot = ""
      refine update_paths_preserve ?_ ha
      decide
    | base => exact handleValueNum_aboot h (by decide) ha
    | kernel_offset => exact handleValueNum_aboot h (by decide) ha
    | ramdisk_offset => exact handleValueNum_aboot h (by decide) ha
    | second_offset => exact handleValueNum_aboot h (by decide) ha
    | tags_offset => exact handleValueNum_aboot h (by decide) ha
    | ipl_address => exact handleValueNum_aboot h (by decide) ha
    | rpm_address => exact handleValueNum_aboot h (by decide) ha
    | appsbl_address => exact handleValueNum_aboot h (by decide) ha
    | entrypoint => exact handleValueNum_aboot h (by decide) ha
    | page_size => exact handleValueNum_aboot h (by decide) ha
    | kernel => simp [processPackOpt] at h
    | ramdisk => simp [processPackOpt] at h
    | second => simp [processPackOpt] at h
    | dt => simp [processPackOpt] at h
    | aboot => simp [processPackOpt] at h
    | ipl => simp [processPackOpt] at h
    | rpm => simp [processPackOpt] at h
    | appsbl => simp [processPackOpt] at h
    | sin => simp [processPackOpt] at h
    | sinhdr => simp [processPackOpt] at h

/-- Decomposition of a successful `Except` bind. -/
theorem except_bind_ok {α β : Type} {x : Except PackErr α} {f : α → Except PackErr β}
    {b : β} (h : (x >>= f) = .ok b) : ∃ a, x = .ok a ∧ f a = .ok b := by
  cases x with
  | error e => simp [Bind.bind, Except.bind] at h
  | ok a => exact ⟨a, rfl, by simpa [Bind.bind, Except.bind] using h⟩

/-- In a successful blob phase, the `aboot` component is exactly the result
of the optional-blob read at the `aboot` path. -/
theorem packBlobPhase_aboot {fs : Fsys} {rp : Item → String} {bl : BlobSet}
    (h : packBlobPhase fs rp = .ok bl) :
    readOptionalBlob fs (rp Item.aboot) = .ok bl.aboot := by
  simp only [packBlobPhase] at h
  obtain ⟨kb, h1, h⟩ := except_bind_ok h
  obtain ⟨rb, h2, h⟩ := except_bind_ok h
  obtain ⟨sb, h3, h⟩ := except_bind_ok h
  obtain ⟨db, h4, h⟩ := except_bind_ok h
  obtain ⟨ab, h5, h⟩ := except_bind_ok h
  obtain ⟨ib, h6, h⟩ := except_bind_ok h
  obtain ⟨pb, h7, h⟩ := except_bind_ok h
  obtain ⟨qb, h8, h⟩ := except_bind_ok h
  obtain ⟨nb, h9, h⟩ := except_bind_ok h
  obtain ⟨hb, h10, h⟩ := except_bind_ok h
  simp only [pure, Except.pure, Except.ok.injEq] at h
  subst h
  exact h5

/-! Claim theorems. -/

/-- C1: Round-trip of address arithmetic.  Unpack derives
`base = kernelAddress - DefaultKernelOffset`, writes `kernel_offset =
DefaultKernelOffset`, and computes the ramdisk/second/tags offsets as
`address - base`, all in unsigned 32-bit wraparound arithmetic; pack
reconstructs each address as `base + offset`.  For every 32-bit value of
the codec constant and of the four addresses -- including the cases where
`address < base` and the subtraction wraps -- packing the unpacked values
with no overrides reproduces all four addresses exactly. -/
theorem unpack_pack_address_roundtrip (dko ka ra sa ta : Nat)
    (hdko : dko < U32) (hka : ka < U32) (hra : ra < U32) (hsa : sa < U32)
    (hta : ta < U32) :
    reconstructAddresses (deriveOffsets dko ka ra sa ta) = ⟨ka, ra, sa, ta⟩ := by
  simp only [reconstructAddresses, deriveOffsets, Addresses.mk.injEq, u32add,
    u32sub, U32] at *
  refine ⟨?_, ?_, ?_, ?_⟩ <;> omega

/-- C1 witness: a concrete wrapping instance -- with `DefaultKernelOffset =
0x00008000` and `kernelAddress = 0x10008000` the base is `0x10000000`, and
the ramdisk address `0x01000000` lies below it, so its offset wraps; all
four addresses are still reproduced. -/
theorem unpack_pack_address_roundtrip_witness :
    reconstructAddresses (deriveOffsets 32768 268468224 16777216 269484032 268439552) =
      ⟨268468224, 16777216, 269484032, 268439552⟩ :=
  unpack_pack_address_roundtrip 32768 268468224 16777216 269484032 268439552
    (by decide) (by decide) (by decide) (by decide) (by decide)

/-- C2 counterexample: a hex32 item file whose content is the four-digit
string "1234" does not make packing fail; the scalar reader accepts it with
value 0x1234 = 4660, because in `fscanf` the `8` of `"%08x"` is a maximum
field width, not an exact length. -/
theorem hex_scan_short_accepted :
    readHexItem (fun _ => FileState.content "1234") "f" 0 = .ok 4660 ∧
    readHexItem (fun _ => FileState.content "1234") "f" 0 ≠
      .error (.scanFormat "f") := by
  refine ⟨rfl, ?_⟩
  intro h
  rw [show readHexItem (fun _ => FileState.content "1234") "f" 0 = .ok 4660
    from rfl] at h
  exact Except.noConfusion h

/-- C2 (amended): the `fscanf("%08x")` scan of a hex32 item is lenient, not
exact-width: it accepts any line whose first non-whitespace token starts
with one to eight hex digits (at most eight are consumed) and yields that
value -- in particular the four-digit "1234" yields 0x1234 -- and it fails
with the "expected format" error only when no hex digit can be converted at
all (empty file, or a first token with no digits). -/
theorem hex_scan_lenient :
    (∀ fs p d s v, fsOpen fs p = .content s → scanHex8 s.data = some v →
        readHexItem fs p d = .ok v) ∧
    (∀ fs p d s, fsOpen fs p = .content s → scanHex8 s.data = none →
        readHexItem fs p d = .error (.scanFormat p)) ∧
    scanHex8 "1234".data = some 4660 ∧
    scanHex8 "0000000a\n".data = some 10 ∧
    scanHex8 "123456789".data = some 305419896 ∧
    scanHex8 "".data = none ∧
    scanHex8 "xyz".data = none := by
  refine ⟨?_, ?_, by decide, by decide, by decide, by decide, by decide⟩
  · intro fs p d s v h1 h2
    simp [readHexItem, h1, h2]
  · intro fs p d s h1 h2
    simp [readHexItem, h1, h2]

/-- C2 witness: the accepting branch of the amended claim at a concrete
two-digit file. -/
theorem hex_scan_lenient_witness :
    readHexItem (fun _ => FileState.content "ab") "f" 3 = .ok 171 :=
  hex_scan_lenient.1 (fun _ => FileState.content "ab") "f" 3 "ab" 171 rfl
    (by decide)

/-- C3: Override precedence during pack.  Processing any option list that
contains `--value-X` (in any position, so in either order relative to an
`--input-X`) leaves the value override recorded for X, and the scalar read
step of an item whose value override is recorded returns the stored literal
for every file system whatsoever -- the overriding path is never opened and
can never make the operation fail.  When only a path override is present
(value absent, path non-empty) the resolved path is that path; when neither
is present the resolved path is the computed default
`join(inputDirectory, effectivePrefix + key)`. -/
theorem override_precedence :
    (∀ ulMax l1 i v l2 st,
        processPackOpts ulMax (l1 ++ PackOpt.valueItem i v :: l2) = .ok st →
        st.values i = true) ∧
    (∀ lit fs p d, scalarHexStep true lit fs p d = .ok lit) ∧
    (∀ lit fs p d, scalarDecStep true lit fs p d = .ok lit) ∧
    (∀ cap lit fs p d, scalarTextStep cap true lit fs p d = .ok lit) ∧
    (∀ st outF i, isValueScalar i = true → st.values i = false →
        st.paths i ≠ "" → packResolvedPath st outF i = st.paths i) ∧
    (∀ st outF i, isValueScalar i = true → st.values i = false →
        st.paths i = "" →
        packResolvedPath st outF i =
          io_pathJoin (packInputDir st.inputDir)
            (effectivePfx st.noPfx st.pfxArg outF ++ itemKey i)) := by
  refine ⟨?_, fun _ _ _ _ => rfl, fun _ _ _ _ => rfl, fun _ _ _ _ _ => rfl,
    ?_, ?_⟩
  · intro ulMax l1 i v l2 st h
    unfold processPackOpts at h
    obtain ⟨stm, h1, h2⟩ := packFold_append ulMax l1 _ _ _ h
    rw [List.foldlM_cons] at h2
    cases ho : processPackOpt ulMax stm (PackOpt.valueItem i v) with
    | error e => rw [ho] at h2; simp [Bind.bind, Except.bind] at h2
    | ok st1 =>
      rw [ho] at h2
      simp only [Bind.bind, Except.bind] at h2
      exact packFold_preserve ulMax (fun s => s.values i = true) l2
        (fun s o s' _ hh hP => processPackOpt_values_mono hh i hP) st1 st h2
        (processPackOpt_value_sets ho)
  · intro st outF i hsc hv hp
    simp [packResolvedPath, hsc, hv, hp]
  · intro st outF i hsc hv hp
    simp [packResolvedPath, hsc, hv, hp]

/-- C3 witness: for a state where only `--input-base /x` was given, the
resolved path of `base` is `/x`. -/
theorem override_precedence_witness :
    packResolvedPath pathOnlyState "boot.img" Item.base = "/x" :=
  override_precedence.2.2.2.2.1 pathOnlyState "boot.img" Item.base (by decide)
    (by decide) (by decide)

/-- C4 counterexample: a scalar item file whose open fails with a
permission error (not "file does not exist") does not abort packing; the
code never inspects `errno` after a failed scalar `fopen` and substitutes
the codec default (here 7) exactly as for a missing file. -/
theorem scalar_denied_not_fatal :
    readHexItem (fun _ => FileState.denied) "f" 7 = .ok 7 ∧
    readHexItem (fun _ => FileState.denied) "f" 7 ≠ .error (.ioError "f") := by
  refine ⟨rfl, ?_⟩
  intro h
  rw [show readHexItem (fun _ => FileState.denied) "f" 7 = .ok 7 from rfl] at h
  exact Except.noConfusion h

/-- C4 (amended): for every scalar item read without a value override, a
failure to open the resolved file -- for any reason, be it a missing file
or a permission error -- substitutes the codec's documented default and is
not an error; only a failure while reading the successfully opened stream
aborts the pack operation with a fatal I/O error naming the path. -/
theorem scalar_read_error_causes :
    (∀ fs p d, fsOpen fs p = .absent → readHexItem fs p d = .ok d) ∧
    (∀ fs p d, fsOpen fs p = .denied → readHexItem fs p d = .ok d) ∧
    (∀ fs p d, fsOpen fs p = .readFail →
        readHexItem fs p d = .error (.ioError p)) ∧
    (∀ fs p d, fsOpen fs p = .absent → readDecItem fs p d = .ok d) ∧
    (∀ fs p d, fsOpen fs p = .denied → readDecItem fs p d = .ok d) ∧
    (∀ fs p d, fsOpen fs p = .readFail →
        readDecItem fs p d = .error (.ioError p)) ∧
    (∀ cap fs p d, fsOpen fs p = .absent → readTextItem cap fs p d = .ok d) ∧
    (∀ cap fs p d, fsOpen fs p = .denied → readTextItem cap fs p d = .ok d) ∧
    (∀ cap fs p d, fsOpen fs p = .readFail →
        readTextItem cap fs p d = .error (.ioError p)) := by
  refine ⟨?_, ?_, ?_, ?_, ?_, ?_, ?_, ?_, ?_⟩ <;>
    first
      | (intro fs p d h; simp [readHexItem, readDecItem, h])
      | (intro cap fs p d h; simp [readTextItem, h])

/-- C4 witness: a read error after a successful open is fatal at a concrete
input. -/
theorem scalar_read_error_causes_witness :
    readHexItem (fun _ => FileState.readFail) "f" 5 = .error (.ioError "f") :=
  scalar_read_error_causes.2.2.1 (fun _ => FileState.readFail) "f" 5 rfl

/-- C5: Blob resolution during pack.  An optional blob whose resolved file
does not exist yields the empty blob and packing continues; the kernel and
ramdisk reads abort on a missing file -- the blob phase takes no notice of
the target format, and the kernel (first) and ramdisk (second) steps fail
whatever the rest of the file system holds -- while a kernel or ramdisk
file that exists with zero length is accepted: the check is on presence,
not size. -/
theorem blob_read_policy :
    (∀ fs p, fsOpen fs p = .absent → readOptionalBlob fs p = .ok "") ∧
    (∀ fs p, fsOpen fs p = .absent →
        readRequiredBlob fs p = .error (.ioError p)) ∧
    (∀ fs p d, fsOpen fs p = .content d → readRequiredBlob fs p = .ok d) ∧
    (∀ fs rp, fsOpen fs (rp Item.kernel) = .absent →
        packBlobPhase fs rp = .error (.ioError (rp Item.kernel))) ∧
    (∀ fs rp d, fsOpen fs (rp Item.kernel) = .content d →
        fsOpen fs (rp Item.ramdisk) = .absent →
        packBlobPhase fs rp = .error (.ioError (rp Item.ramdisk))) := by
  refine ⟨?_, ?_, ?_, ?_, ?_⟩
  · intro fs p h; simp [readOptionalBlob, read_file_data, h]
  · intro fs p h; simp [readRequiredBlob, read_file_data, h]
  · intro fs p d h; simp [readRequiredBlob, read_file_data, h]
  · intro fs rp h
    simp [packBlobPhase, readRequiredBlob, read_file_data, h, Bind.bind,
      Except.bind]
  · intro fs rp d h1 h2
    simp [packBlobPhase, readRequiredBlob, read_file_data, h1, h2, Bind.bind,
      Except.bind]

/-- C5 witness: a present-but-empty kernel file is accepted. -/
theorem blob_read_policy_witness :
    readRequiredBlob (fun _ => FileState.content "") "k" = .ok "" :=
  blob_read_policy.2.2.1 (fun _ => FileState.content "") "k" "" rfl

/-- C6: Default path construction and stem derivation.  For every item
without an explicit path override (and, for pack, no value override; `aboot`
excluded since pack computes no default for it), the resolved path is
`join(directory, effectivePrefix + key)`, where the effective stem is the
supplied `-p` argument plus `"-"`, or, when none was supplied, the base
name of the image file argument (input file for unpack, output file for
pack) plus `"-"`, or the empty string in no-prefix mode; in particular
`unpack boot.img -o out/` writes `out/boot.img-kernel` etc. and
`unpack boot.img -o out/ -n` writes `out/kernel` etc. -/
theorem default_path_construction :
    (∀ st outF i, i ≠ Item.aboot → st.paths i = "" →
        (isValueScalar i = true → st.values i = false) →
        packResolvedPath st outF i =
          io_pathJoin (packInputDir st.inputDir)
            (effectivePfx st.noPfx st.pfxArg outF ++ itemKey i)) ∧
    (∀ st inF i, st.paths i = "" →
        unpackResolvedPath st inF i =
          io_pathJoin (unpackOutputDir st.outputDir)
            (effectivePfx st.noPfx st.pfxArg inF ++ itemKey i)) ∧
    (∀ pa imf, pa ≠ "" → effectivePfx false pa imf = pa ++ "-") ∧
    (∀ imf, effectivePfx false "" imf = io_baseName imf ++ "-") ∧
    (∀ pa imf, effectivePfx true pa imf = "") ∧
    unpackResolvedPath ⟨false, "out/", "", fun _ => ""⟩ "boot.img" Item.kernel =
      "out/boot.img-kernel" ∧
    unpackResolvedPath ⟨false, "out/", "", fun _ => ""⟩ "boot.img" Item.cmdline =
      "out/boot.img-cmdline" ∧
    unpackResolvedPath ⟨true, "out/", "", fun _ => ""⟩ "boot.img" Item.kernel =
      "out/kernel" := by
  refine ⟨?_, ?_, ?_, fun _ => rfl, fun _ _ => rfl, by decide, by decide,
    by decide⟩
  · intro st outF i hab hp hv
    by_cases hsc : isValueScalar i = true
    · simp [packResolvedPath, hsc, hp, hv hsc]
    · rw [Bool.not_eq_true] at hsc
      simp [packResolvedPath, hsc, hab, hp]
  · intro st inF i hp
    simp [unpackResolvedPath, hp]
  · intro pa imf hpa
    simp [effectivePfx, hpa]

/-- C6 witness: the unpack default-path conjunct at a concrete state. -/
theorem default_path_construction_witness :
    unpackResolvedPath ⟨false, "dir", "pre", fun _ => ""⟩ "boot.img" Item.dt =
      "dir/pre-dt" :=
  default_path_construction.2.1 ⟨false, "dir", "pre", fun _ => ""⟩ "boot.img"
    Item.dt rfl

/-- C7: Loki precondition.  Any pack invocation whose option loop succeeds
with target type Loki and without any `--input-aboot` option fails with the
aboot usage error; the result is the same for every file system (so no item
file is opened or read), and since `pack_main` returns before the codec's
build step, no output image is created. -/
theorem loki_requires_aboot (ulMax : Nat) (env : CodecEnv) (opts : List PackOpt)
    (outFile : String) (st : PackState)
    (hok : processPackOpts ulMax opts = .ok st)
    (hloki : st.btype = BType.loki)
    (hno : ∀ p, PackOpt.inputItem Item.aboot p ∉ opts) :
    ∀ fs, packReads ulMax env opts outFile fs = .error PackErr.abootRequired := by
  intro fs
  have ha : st.paths Item.aboot = "" := by
    refine packFold_preserve ulMax (fun s => s.paths Item.aboot = "") opts
      (fun s o s' hm hh hP => processPackOpt_aboot_path hh (fun p hp => ?_) hP)
      initPackState st hok rfl
    exact hno p (hp ▸ hm)
  simp [packReads, hok, hloki, ha]

/-- C7 witness: `pack out.img -t loki` with no other option fails with the
aboot usage error on a file system where every path exists. -/
theorem loki_requires_aboot_witness :
    packReads 0 sampleEnv [PackOpt.typeOpt "loki"] "out.img"
      (fun _ => FileState.content "") = .error PackErr.abootRequired :=
  loki_requires_aboot 0 sampleEnv [PackOpt.typeOpt "loki"] "out.img"
    lokiOptState rfl rfl (fun p h => by simp at h)
    (fun _ => FileState.content "")

/-- C8 (the claim is a code bug): `-h` is absent from both getopt
optstrings and `"help"` from both long-option tables, so `getopt_long`
returns `?` (63) for them and the switch falls to its `default` branch,
which prints the usage text to standard error and returns failure -- the
`case 'h'` branches (which would print to standard output and return
success, as the claim and the tool's own main usage text describe) are
unreachable for every possible option token. -/
theorem help_option_not_recognized :
    unpackSwitchCase (getoptCode unpackShortOpts unpackLongOpts
      (CliTok.shortOpt 'h')) = OptOutcome.usageToStderr ∧
    unpackSwitchCase (getoptCode unpackShortOpts unpackLongOpts
      (CliTok.longOpt "help")) = OptOutcome.usageToStderr ∧
    packSwitchCase (getoptCode packShortOpts packLongOpts
      (CliTok.shortOpt 'h')) = OptOutcome.usageToStderr ∧
    packSwitchCase (getoptCode packShortOpts packLongOpts
      (CliTok.longOpt "help")) = OptOutcome.usageToStderr ∧
    (∀ t, unpackSwitchCase (getoptCode unpackShortOpts unpackLongOpts t) ≠
      OptOutcome.helpToStdout) ∧
    (∀ t, packSwitchCase (getoptCode packShortOpts packLongOpts t) ≠
      OptOutcome.helpToStdout) := by
  refine ⟨by decide, by decide, by decide, by decide, ?_, ?_⟩
  · intro t
    cases t with
    | shortOpt c =>
      by_cases hc : unpackShortOpts.contains c
      · have hm : c ∈ unpackShortOpts := by simpa [List.elem_iff] using hc
        simp only [unpackShortOpts, List.mem_cons, List.not_mem_nil,
          or_false] at hm
        rcases hm with rfl | rfl | rfl <;> decide
      · rw [Bool.not_eq_true] at hc
        simp only [getoptCode, hc, Bool.false_eq_true, if_false]
        decide
    | longOpt s =>
      cases hf : unpackLongOpts.find? (fun e => e.1 == s) with
      | none => simp only [getoptCode, hf]; decide
      | some e =>
        simp only [getoptCode, hf]
        have hm := List.mem_of_find?_eq_some hf
        fin_cases hm <;> decide
  · intro t
    cases t with
    | shortOpt c =>
      by_cases hc : packShortOpts.contains c
      · have hm : c ∈ packShortOpts := by simpa [List.elem_iff] using hc
        simp only [packShortOpts, List.mem_cons, List.not_mem_nil,
          or_false] at hm
        rcases hm with rfl | rfl | rfl | rfl <;> decide
      · rw [Bool.not_eq_true] at hc
        simp only [getoptCode, hc, Bool.false_eq_true, if_false]
        decide
    | longOpt s =>
      cases hf : packLongOpts.find? (fun e => e.1 == s) with
      | none => simp only [getoptCode, hf]; decide
      | some e =>
        simp only [getoptCode, hf]
        have hm := List.mem_of_find?_eq_some hf
        fin_cases hm <;> decide

/-- C8 witness: the dead-code conjunct at a concrete unrecognised token. -/
theorem help_option_not_recognized_witness :
    unpackSwitchCase (getoptCode unpackShortOpts unpackLongOpts
      (CliTok.shortOpt 'z')) ≠ OptOutcome.helpToStdout :=
  help_option_not_recognized.2.2.2.2.1 (CliTok.shortOpt 'z')

/-- C9 counterexample: on an LP64 platform (`ULONG_MAX = 2^64 - 1`) the
literal `100000000` (hex), which equals `2^32` and therefore does not fit
in 32 bits, is not rejected by `--value-base`: `strtoul` parses it without
`ERANGE` and the assignment to `uint32_t` truncates it to 0, so the
override is accepted with value 0. -/
theorem value_range_truncated :
    (processPackOpt (2 ^ 64 - 1) initPackState
        (PackOpt.valueItem Item.base "100000000")).map
      (fun st => (st.values Item.base, st.numVals Item.base)) =
      Except.ok (true, 0) := rfl

/-- C9 (amended): for every scalar `--value-X` override, hex-kind items are
parsed in base 16 and `page_size` in base 10; a literal that is empty, has
trailing non-numeric characters, or exceeds the platform `ULONG_MAX` is
rejected with an error naming the item, during the option loop and hence
before any file I/O (a loop failure makes the pack pipeline fail
identically for every file system); but a literal that fits in `unsigned
long` while exceeding 32 bits is accepted and truncated modulo `2^32`, so
where `unsigned long` is 64 bits wide an out-of-32-bit-range literal is not
rejected. -/
theorem value_literal_validation :
    (∀ ulMax st i s b, numBase i = some b → str_to_uint32 ulMax s b = none →
        processPackOpt ulMax st (.valueItem i s) =
          .error (.invalidValue i)) ∧
    (∀ ulMax st i s b v, numBase i = some b →
        str_to_uint32 ulMax s b = some v →
        processPackOpt ulMax st (.valueItem i s) = .ok (setNumValue st i v)) ∧
    (∀ ulMax env opts outF fs e, processPackOpts ulMax opts = .error e →
        packReads ulMax env opts outF fs = .error e) ∧
    numBase Item.base = some 16 ∧
    numBase Item.kernel_offset = some 16 ∧
    numBase Item.ramdisk_offset = some 16 ∧
    numBase Item.second_offset = some 16 ∧
    numBase Item.tags_offset = some 16 ∧
    numBase Item.ipl_address = some 16 ∧
    numBase Item.rpm_address = some 16 ∧
    numBase Item.appsbl_address = some 16 ∧
    numBase Item.entrypoint = some 16 ∧
    numBase Item.page_size = some 10 ∧
    (∀ ulMax, str_to_uint32 ulMax "" 16 = none ∧
      str_to_uint32 ulMax "" 10 = none) ∧
    str_to_uint32 (2 ^ 64 - 1) "12g4" 16 = none ∧
    str_to_uint32 (2 ^ 32 - 1) "100000000" 16 = none ∧
    str_to_uint32 (2 ^ 64 - 1) "100000000" 16 = some 0 := by
  refine ⟨?_, ?_, ?_, rfl, rfl, rfl, rfl, rfl, rfl, rfl, rfl, rfl, rfl, ?_,
    by decide, by decide, by decide⟩
  · intro ulMax st i s b hb hp
    cases i <;> simp_all [numBase, processPackOpt, handleValueNum]
  · intro ulMax st i s b v hb hp
    cases i <;> simp_all [numBase, processPackOpt, handleValueNum]
  · intro ulMax env opts outF fs e h
    simp [packReads, h]
  · intro ulMax
    constructor <;>
      simp [str_to_uint32, strtoulModel, dropSign, drop0x, takeDigits]

/-- C9 witness: a malformed literal for `--value-base` is rejected with the
item-named error. -/
theorem value_literal_validation_witness :
    processPackOpt (2 ^ 64 - 1) initPackState
      (PackOpt.valueItem Item.base "xyz") =
      .error (.invalidValue Item.base) :=
  value_literal_validation.1 (2 ^ 64 - 1) initPackState Item.base "xyz" 16 rfl
    (by decide)

/-- C10 (implicit): `aboot` is the only blob item with no computed default
path -- path resolution leaves its path exactly as the option loop set it,
and without any `--input-aboot` option that path is the empty string, on
which the open necessarily fails with `ENOENT` (so no file is ever opened
for `aboot`) and the blob handed to the codec stays empty. -/
theorem aboot_resolution (ulMax : Nat) (opts : List PackOpt) (st : PackState)
    (hok : processPackOpts ulMax opts = .ok st)
    (hno : ∀ p, PackOpt.inputItem Item.aboot p ∉ opts) :
    st.paths Item.aboot = "" ∧
    (∀ outFile, packResolvedPath st outFile Item.aboot = st.paths Item.aboot) ∧
    (∀ fs, readOptionalBlob fs (st.paths Item.aboot) = .ok "") ∧
    (∀ fs rp bl, packBlobPhase fs rp = .ok bl → rp Item.aboot = "" →
        bl.aboot = "") := by
  have ha : st.paths Item.aboot = "" := by
    refine packFold_preserve ulMax (fun s => s.paths Item.aboot = "") opts
      (fun s o s' hm hh hP => processPackOpt_aboot_path hh (fun p hp => ?_) hP)
      initPackState st hok rfl
    exact hno p (hp ▸ hm)
  refine ⟨ha, ?_, ?_, ?_⟩
  · intro outFile
    simp [packResolvedPath, isValueScalar]
  · intro fs
    rw [ha]
    simp [readOptionalBlob, read_file_data, fsOpen]
  · intro fs rp bl h hab
    have h5 := packBlobPhase_aboot h
    rw [hab] at h5
    rw [show readOptionalBlob fs "" = Except.ok "" by
      simp [readOptionalBlob, read_file_data, fsOpen]] at h5
    injection h5 with h5
    exact h5.symm

/-- C10 witness: with no options at all, the aboot path stays empty. -/
theorem aboot_resolution_witness :
    initPackState.paths Item.aboot = "" :=
  (aboot_resolution 0 [] initPackState rfl (fun _ => List.not_mem_nil _)).1

end Bootimgtool
